import Mathlib

/-!
Shallow embedding of the core of journalwatch (journalwatch.py): the rule
compiler `read_patterns`, the message reader `read_entry_message`, the
formatter `format_entry` and the evaluator `filter_message`.

Modelling conventions:

* A compiled regular expression (Python `re.compile(s)`) is modelled as a
  structure holding its pattern string.  Regex *matching* semantics are kept
  abstract: functions that call `.match` take a parameter
  `rmatch : Regex → String → Bool` (the embedding of Python's
  `pattern.match(text)` truthiness).  Equality of compiled patterns is
  pattern-string equality, which is what Python's `re.compile` cache gives
  for dict keys (and what the repository's own tests rely on).
* A journal entry (a Python dict) is an association list from field names to
  tagged values (string / int / bytes); lookups find the first binding, and
  dicts never hold a key twice.
* The pattern table (a Python dict built by item assignment) is an
  association list in insertion order; `dict_insert` models
  `patterns[header] = cur_patterns`: replacement in place for an existing
  key, append for a new one.
* Python's `str()` is `pyStr`; for byte blobs it approximates Python's
  `repr` (Python switches quoting style in some corner cases; no byte blob
  is ever rendered by the claims below).
* The `JournalWatchError` raised for a bad header line is modelled by
  `Except.error line`, carrying the offending line; Python wraps the line in
  a fixed message around it.
* `datetime.ctime` is kept abstract as a parameter of `format_entry`.
-/

/-- A compiled regular expression: `re.compile(pattern)`. -/
structure Regex where
  pattern : String
deriving DecidableEq, Repr

/-- A field value of a journal entry: Python values are dynamically typed;
the journal yields strings, ints and byte blobs. -/
inductive Value where
  | vstr (s : String)
  | vint (n : Int)
  | vbytes (bs : List Nat)
deriving DecidableEq, Repr

/-- Hex digit for the byte-blob repr. -/
def hexDigit (n : Nat) : Char :=
  if n < 10 then Char.ofNat (48 + n) else Char.ofNat (87 + n % 16)

/-- One byte of Python's `repr` of a bytes object (approximate: Python

uses single-quote delimiters and escapes accordingly). -/
def byteRepr (b : Nat) : String :=
  if b = 9 then "\\t"
  else if b = 10 then "\\n"
  else if b = 13 then "\\r"
  else if b = 92 then "\\\\"
  else if b = 34 then "\\\""
  else if 32 ≤ b ∧ b ≤ 126 then String.singleton (Char.ofNat b)
  else "\\x" ++ String.singleton (hexDigit (b / 16)) ++ String.singleton (hexDigit (b % 16))

/-- Python's `str()` on a field value. -/
def pyStr : Value → String
  | .vstr s => s
  | .vint n => toString n
  | .vbytes bs => "b" ++ "\"" ++ String.join (bs.map byteRepr) ++ "\""

/-- A journal entry: dict from field name to value (keys unique). -/
abbrev Entry := List (String × Value)

/-- `entry.get(key)` / `entry[key]` / `key in entry`: first binding. -/
def entry_get : Entry → String → Option Value
  | [], _ => none
  | (k, v) :: rest, key => if k = key then some v else entry_get rest key

/-- A field matcher from a rule header: literal string or compiled regex
(`hasattr(v, 'match')` distinguishes the two in Python). -/
inductive Matcher where
  | lit (s : String)
  | rx (r : Regex)
deriving DecidableEq, Repr

/-- The compiled rule table: dict from `(field, matcher)` to the list of
message patterns, in insertion order. -/
abbrev Patterns := List ((String × Matcher) × List Regex)

/-- `patterns[header] = cur_patterns` on a Python dict: replace in place if
the key exists, else append. -/
def dict_insert (m : Patterns) (k : String × Matcher) (v : List Regex) : Patterns :=
  if m.any (fun p => p.1 = k) then
    m.map (fun p => if p.1 = k then (k, v) else p)
  else
    m ++ [(k, v)]

/-- Python's whitespace set for `str.strip` (space, tab, newline, carriage
return, vertical tab, form feed). -/
def py_whitespace (c : Char) : Bool :=
  c = ' ' || c = '\t' || c = '\n' || c = '\r' || c = Char.ofNat 11 || c = Char.ofNat 12

/-- Python's `s.strip()`: remove leading and trailing whitespace. -/
def py_strip (s : String) : String :=
  ⟨((s.data.dropWhile py_whitespace).reverse.dropWhile py_whitespace).reverse⟩

/-- The splitting loop of Python's `s.split(sep)` for a one-character
separator: split at every occurrence. -/
def split_go (sep : Char) : List Char → List Char → List (List Char)
  | [], acc => [acc.reverse]
  | c :: rest, acc =>
    if c = sep then acc.reverse :: split_go sep rest []
    else split_go sep rest (c :: acc)

/-- Python's `s.split(sep)` for a one-character separator. -/
def py_split (s : String) (sep : Char) : List String :=
  (split_go sep s.data []).map (fun l => ⟨l⟩)

/-- Python's `s.startswith(c)` for a one-character prefix. -/
def py_startswith (s : String) (c : Char) : Bool :=
  match s.data with
  | [] => false
  | x :: _ => x = c

/-- Python's `s.endswith(c)` for a one-character suffix. -/
def py_endswith (s : String) (c : Char) : Bool :=
  match s.data.reverse with
  | [] => false
  | x :: _ => x = c

/-- Python's slice `s[1:-1]`. -/
def py_slice_inner (s : String) : String :=
  ⟨(s.data.drop 1).dropLast⟩

/-- `line.rstrip(chr(10))`: drop trailing newline characters. -/
def rstrip_nl (s : String) : String :=
  ⟨(s.data.reverse.dropWhile (fun c => c = '\n')).reverse⟩

/-- The `if header is not None and cur_patterns: patterns[header] = cur_patterns`
step of `read_patterns`, run at a blank line and at end of input. -/
def commit_block (patterns : Patterns) (header : Option (String × Matcher))
    (cur_patterns : List Regex) : Patterns :=
  match header with
  | none => patterns
  | some h => if cur_patterns.isEmpty then patterns else dict_insert patterns h cur_patterns

/-- Parsing of a header line in `read_patterns`:
`k, v = line.split('=')` (ValueError unless the split yields exactly two
parts), strip both sides, `/…/` wraps a regex. On failure the offending
line is carried in the error. -/
def parse_header (line : String) : Except String (String × Matcher) :=
  match py_split line '=' with
  | [k, v] =>
    let v := py_strip v
    if py_startswith v '/' && py_endswith v '/' then
      .ok (py_strip k, .rx ⟨py_slice_inner v⟩)
    else
      .ok (py_strip k, .lit v)
  | _ => .error line

/-- The loop state of `read_patterns`. -/
structure RPState where
  patterns : Patterns
  is_header : Bool
  cur_patterns : List Regex
  header : Option (String × Matcher)

/-- One iteration of the `for line in iterable` loop of `read_patterns`. -/
def process_line (st : RPState) (line : String) : Except String RPState :=
  if py_startswith line '#' then
    .ok st
  else if py_strip line = "" then
    .ok { patterns := commit_block st.patterns st.header st.cur_patterns,
          is_header := true, cur_patterns := [], header := none }
  else if st.is_header then
    match parse_header line with
    | .ok h => .ok { st with header := some h, is_header := false }
    | .error e => .error e
  else
    .ok { st with cur_patterns := st.cur_patterns ++ [⟨rstrip_nl line⟩] }

/-- The `for` loop of `read_patterns`, raising on the first bad header. -/
def run_lines (st : RPState) : List String → Except String RPState
  | [] => .ok st
  | line :: rest =>
    match process_line st line with
    | .error e => .error e
    | .ok st₂ => run_lines st₂ rest

/-- The initial loop state of `read_patterns`. -/
def init_state : RPState :=
  { patterns := [], is_header := true, cur_patterns := [], header := none }

/-- `read_patterns(iterable)`: compile the rule file into the pattern table,
committing the last block at end of input. -/
def read_patterns (lines : List String) : Except String Patterns :=
  match run_lines init_state lines with
  | .error e => .error e
  | .ok st => .ok (commit_block st.patterns st.header st.cur_patterns)

/-- The placeholder substituted for a byte-blob message of length `n`. -/
def blob_placeholder (n : Nat) : String :=
  "[journalwatch: " ++ toString n ++ "B blob data]"

/-- `read_entry_message(entry, replace_empty=…)`: the message field with a
byte blob replaced by the placeholder, and a default when absent. -/
def read_entry_message (entry : Entry) (replace_empty : Bool) : String :=
  let dflt := if replace_empty then "EMPTY!" else ""
  match entry_get entry "MESSAGE" with
  | none => dflt
  | some (.vbytes bs) => blob_placeholder bs.length
  | some v => pyStr v

/-- `' '.join(words)`. -/
def space_join : List String → String
  | [] => ""
  | [w] => w
  | w :: ws => w ++ " " ++ space_join ws

/-- `format_entry(entry)`: one display line, with `datetime.ctime` abstract
(`ctime` is applied to the raw `__REALTIME_TIMESTAMP` value). -/
def format_entry (ctime : Value → String) (entry : Entry) : String :=
  let words := [if (entry_get entry "_SYSTEMD_UNIT").isSome then "U" else "S"]
  let words := words ++ (match entry_get entry "__REALTIME_TIMESTAMP" with
    | some t => [ctime t]
    | none => [])
  let words := words ++ (match entry_get entry "PRIORITY" with
    | some p => [pyStr p]
    | none => [])
  let words := words ++ (match entry_get entry "_SYSTEMD_UNIT" with
    | some u => [pyStr u]
    | none => [])
  let name := (match entry_get entry "SYSLOG_IDENTIFIER" with
    | some s => pyStr s
    | none => "")
  let name := name ++ (match entry_get entry "_PID" with
    | some p => "[" ++ pyStr p ++ "]"
    | none => "")
  let name := name ++ ":"
  let words := words ++ [name]
  let words := words ++ [read_entry_message entry true]
  space_join words

/-- The field-matcher test of `filter_message`: regex matchers use
`v.match(str(entry[k]))`, literals use `str(entry[k]) != v`. -/
def matcher_matches (rmatch : Regex → String → Bool) (m : Matcher) (val : Value) : Bool :=
  match m with
  | .rx r => rmatch r (pyStr val)
  | .lit s => pyStr val = s

/-- One `(k, v), cur_patterns` iteration of `filter_message`'s loop: the
field must be present and match, and some pattern must match the message. -/
def condition_matches (rmatch : Regex → String → Bool) (entry : Entry)
    (c : (String × Matcher) × List Regex) : Bool :=
  match entry_get entry c.1.1 with
  | none => false
  | some val =>
    matcher_matches rmatch c.1.2 val
      && c.2.any (fun filt => rmatch filt (read_entry_message entry false))

/-- `filter_message(patterns, entry)`: `True` iff some block suppresses the
entry; entries without a `MESSAGE` field are never suppressed. -/
def filter_message (rmatch : Regex → String → Bool) (patterns : Patterns)
    (entry : Entry) : Bool :=
  if (entry_get entry "MESSAGE").isNone then false
  else patterns.any (condition_matches rmatch entry)

/-- First-match lookup in the pattern table (`patterns[key]` on the dict). -/
def patterns_get : Patterns → (String × Matcher) → Option (List Regex)
  | [], _ => none
  | c :: rest, key => if c.1 = key then some c.2 else patterns_get rest key

/-- Spec-side characterization for the compiler's error condition: the
non-comment, non-blank lines of the input that occur where a header is
expected (start of input, or right after a blank line closed a block). -/
def header_positions_go : Bool → List String → List String
  | _, [] => []
  | b, line :: rest =>
    if py_startswith line '#' then header_positions_go b rest
    else if py_strip line = "" then header_positions_go true rest
    else if b then line :: header_positions_go false rest
    else header_positions_go false rest

/-- The lines of the input sitting in header position. -/
def header_positions (lines : List String) : List String :=
  header_positions_go true lines

/-- Two booleans agreeing as propositions are equal. -/
theorem bool_eq_of_true_iff {a b : Bool} (h : a = true ↔ b = true) : a = b := by
  cases a <;> cases b <;> simp_all

/-- C4: compiling the five-line rule text `_SYSTEMD_UNIT = foo` / `bar` /
blank / `_SYSTEMD_UNIT = /baz/` / `fish` (no trailing blank line) yields
exactly the two entries: literal key `foo ↦ [bar]` and regex key
`baz ↦ [fish]`; end of input commits the second block. -/
theorem read_patterns_two_blocks :
    read_patterns ["_SYSTEMD_UNIT = foo", "bar", "", "_SYSTEMD_UNIT = /baz/", "fish"]
      = Except.ok [(("_SYSTEMD_UNIT", Matcher.lit "foo"), [⟨"bar"⟩]),
                   (("_SYSTEMD_UNIT", Matcher.rx ⟨"baz"⟩), [⟨"fish"⟩])] := by
  rfl

/-- C6: a record without a `MESSAGE` field is never suppressed, whatever the
pattern table (including the empty one) and the regex semantics. -/
theorem filter_message_no_message (rmatch : Regex → String → Bool)
    (patterns : Patterns) (entry : Entry)
    (h : entry_get entry "MESSAGE" = none) :
    filter_message rmatch patterns entry = false := by
  simp [filter_message, h]

/-- Witness for C6 at the empty record and empty table. -/
theorem filter_message_no_message_witness :
    entry_get [] "MESSAGE" = none
    ∧ filter_message (fun _ _ => false) [] [] = false :=
  ⟨rfl, filter_message_no_message (fun _ _ => false) [] [] rfl⟩

/-- C8: non-string field values are coerced with `str()` before field
comparison; the table `{(PRIORITY, "1") ↦ [msg]}` suppresses the record
`{PRIORITY: int 1, MESSAGE: "msg"}` whenever the compiled pattern `msg`
matches the message text `msg`. -/
theorem filter_message_coerces_int (rmatch : Regex → String → Bool)
    (h : rmatch ⟨"msg"⟩ "msg" = true) :
    pyStr (Value.vint 1) = "1"
    ∧ filter_message rmatch [(("PRIORITY", Matcher.lit "1"), [⟨"msg"⟩])]
        [("PRIORITY", Value.vint 1), ("MESSAGE", Value.vstr "msg")] = true := by
  have h1 : pyStr (Value.vint 1) = "1" := by decide
  refine ⟨h1, ?_⟩
  simp [filter_message, condition_matches, matcher_matches, entry_get,
        read_entry_message, h1]
  exact h

/-- Witness for C8 with `pattern.match(text)` instantiated as equality of the
pattern string with the text. -/
theorem filter_message_coerces_int_witness :
    ((fun (r : Regex) (s : String) => r.pattern == s) ⟨"msg"⟩ "msg" = true)
    ∧ (pyStr (Value.vint 1) = "1"
        ∧ filter_message (fun (r : Regex) (s : String) => r.pattern == s)
            [(("PRIORITY", Matcher.lit "1"), [⟨"msg"⟩])]
            [("PRIORITY", Value.vint 1), ("MESSAGE", Value.vstr "msg")] = true) :=
  ⟨rfl, filter_message_coerces_int (fun r s => r.pattern == s) rfl⟩

/-- C9: the formatter is total — it returns a string on every record — and
the record `{_SYSTEMD_UNIT: "foo"}` (no message, priority or timestamp)
formats to `U foo :` followed by the `EMPTY!` sentinel. -/
theorem format_entry_total_concrete (ctime : Value → String) :
    (∀ entry : Entry, ∃ s, format_entry ctime entry = s)
    ∧ format_entry ctime [("_SYSTEMD_UNIT", Value.vstr "foo")] = "U foo : EMPTY!" :=
  ⟨fun entry => ⟨format_entry ctime entry, rfl⟩, rfl⟩

/-- A condition whose field is absent from the record never matches. -/
theorem condition_matches_isSome {rmatch : Regex → String → Bool} {entry : Entry}
    {c : (String × Matcher) × List Regex}
    (h : condition_matches rmatch entry c = true) :
    (entry_get entry c.1.1).isSome = true := by
  unfold condition_matches at h
  cases hval : entry_get entry c.1.1 with
  | none => rw [hval] at h; simp at h
  | some val => rfl

/-- C7: conditions keyed on fields absent from the record are inapplicable:
dropping them from the table never changes the verdict, and a table all of
whose fields are absent never suppresses. -/
theorem filter_message_absent_fields (rmatch : Regex → String → Bool)
    (patterns : Patterns) (entry : Entry) :
    filter_message rmatch patterns entry
      = filter_message rmatch
          (patterns.filter (fun c => (entry_get entry c.1.1).isSome)) entry
    ∧ ((∀ c ∈ patterns, entry_get entry c.1.1 = none) →
        filter_message rmatch patterns entry = false) := by
  have hmain : filter_message rmatch patterns entry
      = filter_message rmatch
          (patterns.filter (fun c => (entry_get entry c.1.1).isSome)) entry := by
    unfold filter_message
    cases hm : (entry_get entry "MESSAGE").isNone with
    | true => simp
    | false =>
      simp only [Bool.false_eq_true, if_false]
      apply bool_eq_of_true_iff
      simp only [List.any_eq_true, List.mem_filter]
      constructor
      · rintro ⟨c, hc, hcm⟩
        exact ⟨c, ⟨hc, condition_matches_isSome hcm⟩, hcm⟩
      · rintro ⟨c, ⟨hc, _⟩, hcm⟩
        exact ⟨c, hc, hcm⟩
  refine ⟨hmain, fun hall => ?_⟩
  rw [hmain]
  have hnil : patterns.filter (fun c => (entry_get entry c.1.1).isSome) = [] := by
    rw [List.filter_eq_nil_iff]
    intro c hc
    rw [hall c hc]
    simp
  rw [hnil]
  unfold filter_message
  simp

/-- Witness for C7 at a one-condition table whose field is absent. -/
theorem filter_message_absent_fields_witness :
    (filter_message (fun _ _ => true)
        [(("PRIORITY", Matcher.lit "1"), [⟨"x"⟩])] [("MESSAGE", Value.vstr "m")]
      = filter_message (fun _ _ => true)
          (([(("PRIORITY", Matcher.lit "1"), [⟨"x"⟩])] : Patterns).filter
            (fun c => (entry_get [("MESSAGE", Value.vstr "m")] c.1.1).isSome))
          [("MESSAGE", Value.vstr "m")])
    ∧ filter_message (fun _ _ => true)
        [(("PRIORITY", Matcher.lit "1"), [⟨"x"⟩])] [("MESSAGE", Value.vstr "m")] = false :=
  ⟨(filter_message_absent_fields (fun _ _ => true)
      [(("PRIORITY", Matcher.lit "1"), [⟨"x"⟩])] [("MESSAGE", Value.vstr "m")]).1,
   (filter_message_absent_fields (fun _ _ => true)
      [(("PRIORITY", Matcher.lit "1"), [⟨"x"⟩])] [("MESSAGE", Value.vstr "m")]).2
      (by intro c hc; rw [List.mem_singleton] at hc; rw [hc]; rfl)⟩

/-- A single condition matches iff its field is present and matches and one
of its patterns matches the message. -/
theorem condition_matches_eq_true (rmatch : Regex → String → Bool) (entry : Entry)
    (c : (String × Matcher) × List Regex) :
    condition_matches rmatch entry c = true ↔
      ∃ val, entry_get entry c.1.1 = some val
        ∧ matcher_matches rmatch c.1.2 val = true
        ∧ ∃ p ∈ c.2, rmatch p (read_entry_message entry false) = true := by
  unfold condition_matches
  cases hval : entry_get entry c.1.1 with
  | none => simp
  | some val => simp [List.any_eq_true]

/-- `filter_message` is invariant under permutation of the table. -/
theorem filter_message_perm (rmatch : Regex → String → Bool) (entry : Entry)
    {ps ps₂ : Patterns} (hp : ps.Perm ps₂) :
    filter_message rmatch ps entry = filter_message rmatch ps₂ entry := by
  unfold filter_message
  cases hm : (entry_get entry "MESSAGE").isNone with
  | true => rfl
  | false =>
    simp only [Bool.false_eq_true, if_false]
    apply bool_eq_of_true_iff
    simp only [List.any_eq_true]
    constructor
    · rintro ⟨c, hc, hcm⟩; exact ⟨c, hp.mem_iff.mp hc, hcm⟩
    · rintro ⟨c, hc, hcm⟩; exact ⟨c, hp.mem_iff.mpr hc, hcm⟩

/-- C3: on a record with a message field, `filter_message` is the pure
existential "some condition applies, its field matches, and some of its
patterns matches the message"; hence it is the same under every iteration
order of the table. -/
theorem filter_message_existential (rmatch : Regex → String → Bool)
    (patterns : Patterns) (entry : Entry)
    (h : (entry_get entry "MESSAGE").isSome = true) :
    (filter_message rmatch patterns entry = true ↔
      ∃ c ∈ patterns, ∃ val, entry_get entry c.1.1 = some val
        ∧ matcher_matches rmatch c.1.2 val = true
        ∧ ∃ p ∈ c.2, rmatch p (read_entry_message entry false) = true)
    ∧ (∀ patterns₂ : Patterns, patterns.Perm patterns₂ →
        filter_message rmatch patterns entry = filter_message rmatch patterns₂ entry) := by
  constructor
  · have hno : (entry_get entry "MESSAGE").isNone = false := by
      cases hv : entry_get entry "MESSAGE" with
      | none => rw [hv] at h; simp at h
      | some v => rfl
    unfold filter_message
    rw [hno]
    simp only [Bool.false_eq_true, if_false, List.any_eq_true]
    exact exists_congr fun c =>
      and_congr_right fun _ => condition_matches_eq_true rmatch entry c
  · intro patterns₂ hperm
    exact filter_message_perm rmatch entry hperm

/-- Witness for C3 at a concrete suppressing table and record. -/
theorem filter_message_existential_witness :
    ((entry_get [("MESSAGE", Value.vstr "m")] "MESSAGE").isSome = true)
    ∧ ((filter_message (fun (r : Regex) (s : String) => r.pattern == s)
          [(("MESSAGE", Matcher.lit "m"), [⟨"m"⟩])] [("MESSAGE", Value.vstr "m")] = true ↔
        ∃ c ∈ ([(("MESSAGE", Matcher.lit "m"), [⟨"m"⟩])] : Patterns),
          ∃ val, entry_get [("MESSAGE", Value.vstr "m")] c.1.1 = some val
            ∧ matcher_matches (fun (r : Regex) (s : String) => r.pattern == s) c.1.2 val = true
            ∧ ∃ p ∈ c.2, (fun (r : Regex) (s : String) => r.pattern == s) p
                (read_entry_message [("MESSAGE", Value.vstr "m")] false) = true)
      ∧ (∀ patterns₂ : Patterns,
          ([(("MESSAGE", Matcher.lit "m"), [⟨"m"⟩])] : Patterns).Perm patterns₂ →
            filter_message (fun (r : Regex) (s : String) => r.pattern == s)
                [(("MESSAGE", Matcher.lit "m"), [⟨"m"⟩])] [("MESSAGE", Value.vstr "m")]
              = filter_message (fun (r : Regex) (s : String) => r.pattern == s)
                  patterns₂ [("MESSAGE", Value.vstr "m")])) :=
  ⟨rfl, filter_message_existential (fun r s => r.pattern == s)
      [(("MESSAGE", Matcher.lit "m"), [⟨"m"⟩])] [("MESSAGE", Value.vstr "m")] rfl⟩

/-- Joining words whose last element is `m` yields a string ending in `m`. -/
theorem space_join_append_last (ws : List String) (m : String) :
    ∃ pre, space_join (ws ++ [m]) = pre ++ m := by
  induction ws with
  | nil => exact ⟨"", rfl⟩
  | cons w ws ih =>
    cases ws with
    | nil => exact ⟨w ++ " ", rfl⟩
    | cons x xs =>
      obtain ⟨pre, hp⟩ := ih
      refine ⟨w ++ " " ++ pre, ?_⟩
      show w ++ " " ++ space_join ((x :: xs) ++ [m]) = w ++ " " ++ pre ++ m
      rw [hp, String.append_assoc (w ++ " ") pre m]

/-- C2: on a record whose message is a byte blob of length `n`, both message
readings are the synthetic placeholder, the formatted line ends in the
placeholder (never the raw bytes), and no pattern table whose message
patterns all reject the placeholder suppresses the record. -/
theorem blob_message_safety (entry : Entry) (bs : List Nat) (ctime : Value → String)
    (rmatch : Regex → String → Bool) (patterns : Patterns)
    (h : entry_get entry "MESSAGE" = some (Value.vbytes bs)) :
    read_entry_message entry false = blob_placeholder bs.length
    ∧ read_entry_message entry true = blob_placeholder bs.length
    ∧ (∃ pre, format_entry ctime entry = pre ++ blob_placeholder bs.length)
    ∧ ((∀ c ∈ patterns, ∀ p ∈ c.2, rmatch p (blob_placeholder bs.length) = false)
        → filter_message rmatch patterns entry = false) := by
  have hf : read_entry_message entry false = blob_placeholder bs.length := by
    simp [read_entry_message, h]
  have ht : read_entry_message entry true = blob_placeholder bs.length := by
    simp [read_entry_message, h]
  refine ⟨hf, ht, ?_, ?_⟩
  · dsimp only [format_entry]
    rw [ht]
    exact space_join_append_last _ _
  · intro hall
    have hcond : ∀ c ∈ patterns, condition_matches rmatch entry c = false := by
      intro c hc
      unfold condition_matches
      cases hval : entry_get entry c.1.1 with
      | none => rfl
      | some val =>
        have hany : c.2.any (fun filt => rmatch filt (read_entry_message entry false))
            = false := by
          rw [hf]
          exact List.any_eq_false.mpr (fun p hp => by rw [hall c hc p hp]; exact Bool.false_ne_true)
        rw [hany]
        simp
    have hno : (entry_get entry "MESSAGE").isNone = false := by rw [h]; rfl
    unfold filter_message
    rw [hno]
    simp only [Bool.false_eq_true, if_false]
    exact List.any_eq_false.mpr
      (fun c hc => by rw [hcond c hc]; exact Bool.false_ne_true)

/-- Witness for C2 at a three-byte blob message. -/
theorem blob_message_safety_witness :
    entry_get [("MESSAGE", Value.vbytes [0, 1, 2])] "MESSAGE"
        = some (Value.vbytes [0, 1, 2])
    ∧ (read_entry_message [("MESSAGE", Value.vbytes [0, 1, 2])] false
          = blob_placeholder ([0, 1, 2] : List Nat).length
        ∧ read_entry_message [("MESSAGE", Value.vbytes [0, 1, 2])] true
            = blob_placeholder ([0, 1, 2] : List Nat).length
        ∧ (∃ pre, format_entry (fun _ => "") [("MESSAGE", Value.vbytes [0, 1, 2])]
            = pre ++ blob_placeholder ([0, 1, 2] : List Nat).length)
        ∧ ((∀ c ∈ ([] : Patterns), ∀ p ∈ c.2,
              (fun _ _ => false : Regex → String → Bool) p
                (blob_placeholder ([0, 1, 2] : List Nat).length) = false)
            → filter_message (fun _ _ => false) []
                [("MESSAGE", Value.vbytes [0, 1, 2])] = false)) :=
  ⟨rfl, blob_message_safety [("MESSAGE", Value.vbytes [0, 1, 2])] [0, 1, 2]
      (fun _ => "") (fun _ _ => false) [] rfl⟩

/-- Every successful `process_line` step either keeps the table or runs the
block-commit on it. -/
theorem process_line_patterns {st : RPState} {line : String} {st₂ : RPState}
    (h : process_line st line = .ok st₂) :
    st₂.patterns = st.patterns
    ∨ st₂.patterns = commit_block st.patterns st.header st.cur_patterns := by
  unfold process_line at h
  split at h
  · cases h; exact Or.inl rfl
  · split at h
    · cases h; exact Or.inr rfl
    · split at h
      · split at h
        · cases h; exact Or.inl rfl
        · cases h
      · cases h; exact Or.inl rfl

/-- A table property preserved by block commits is carried from the initial
state to the final state of the compiler loop. -/
theorem run_lines_patterns_inv (P : Patterns → Prop)
    (hcommit : ∀ pats hdr cur, P pats → P (commit_block pats hdr cur)) :
    ∀ (lines : List String) (st st₂ : RPState),
      run_lines st lines = .ok st₂ → P st.patterns → P st₂.patterns := by
  intro lines
  induction lines with
  | nil =>
    intro st st₂ h hP
    unfold run_lines at h
    cases h
    exact hP
  | cons line rest ih =>
    intro st st₂ h hP
    unfold run_lines at h
    cases hpl : process_line st line with
    | error e => rw [hpl] at h; cases h
    | ok st₃ =>
      rw [hpl] at h
      have hP₃ : P st₃.patterns := by
        rcases process_line_patterns hpl with heq | heq
        · rw [heq]; exact hP
        · rw [heq]; exact hcommit _ _ _ hP
      exact ih st₃ st₂ h hP₃

/-- A table property preserved by block commits and holding for the empty
table holds for every table `read_patterns` returns. -/
theorem read_patterns_table_inv (P : Patterns → Prop)
    (hcommit : ∀ pats hdr cur, P pats → P (commit_block pats hdr cur))
    (hinit : P []) (lines : List String) (tbl : Patterns)
    (h : read_patterns lines = .ok tbl) : P tbl := by
  unfold read_patterns at h
  cases hr : run_lines init_state lines with
  | error e => rw [hr] at h; cases h
  | ok st =>
    rw [hr] at h
    cases h
    exact hcommit _ _ _ (run_lines_patterns_inv P hcommit lines init_state st hr hinit)

/-- Dict assignment only ever adds the assigned binding. -/
theorem dict_insert_mem {m : Patterns} {k : String × Matcher} {v : List Regex}
    {q : (String × Matcher) × List Regex} (hq : q ∈ dict_insert m k v) :
    q ∈ m ∨ q = (k, v) := by
  unfold dict_insert at hq
  split at hq
  · obtain ⟨p, hp, hfp⟩ := List.mem_map.mp hq
    by_cases hpk : p.1 = k
    · right; rw [← hfp]; simp [hpk]
    · left; rw [← hfp]; simp only [if_neg hpk]; exact hp
  · rcases List.mem_append.mp hq with hm | hm
    · exact Or.inl hm
    · exact Or.inr (List.mem_singleton.mp hm)

/-- A block commit only ever adds the accumulated (non-empty) pattern list. -/
theorem commit_block_mem {pats : Patterns} {hdr : Option (String × Matcher)}
    {cur : List Regex} {q : (String × Matcher) × List Regex}
    (hq : q ∈ commit_block pats hdr cur) :
    q ∈ pats ∨ (cur ≠ [] ∧ q.2 = cur) := by
  unfold commit_block at hq
  split at hq
  · exact Or.inl hq
  · split at hq
    · exact Or.inl hq
    · rcases dict_insert_mem hq with hm | hm
      · exact Or.inl hm
      · refine Or.inr ⟨?_, by rw [hm]⟩
        rename_i hne
        intro he
        exact hne (by rw [he]; rfl)

/-- C5: every entry of a table returned by `read_patterns` holds at least one
pattern; a header whose block accumulated no pattern lines is never stored. -/
theorem read_patterns_nonempty_patterns (lines : List String) (tbl : Patterns)
    (h : read_patterns lines = .ok tbl) :
    ∀ q ∈ tbl, q.2 ≠ [] := by
  refine read_patterns_table_inv (fun pats => ∀ q ∈ pats, q.2 ≠ []) ?_ ?_ lines tbl h
  · intro pats hdr cur hP q hq
    rcases commit_block_mem hq with hmem | ⟨hne, he⟩
    · exact hP q hmem
    · rw [he]; exact hne
  · intro q hq
    cases hq

/-- Witness for C5 at a one-block rule file. -/
theorem read_patterns_nonempty_patterns_witness :
    read_patterns ["A = x", "p"] = Except.ok [(("A", Matcher.lit "x"), [⟨"p"⟩])]
    ∧ ∀ q ∈ ([(("A", Matcher.lit "x"), [⟨"p"⟩])] : Patterns), q.2 ≠ [] :=
  ⟨rfl, read_patterns_nonempty_patterns ["A = x", "p"] _ rfl⟩

/-- Dict assignment never duplicates a key. -/
theorem dict_insert_keys_nodup {m : Patterns} {k : String × Matcher}
    {v : List Regex} (h : (m.map Prod.fst).Nodup) :
    ((dict_insert m k v).map Prod.fst).Nodup := by
  unfold dict_insert
  split
  · rw [List.map_map]
    have hfst : (Prod.fst ∘ fun p : (String × Matcher) × List Regex =>
        if p.1 = k then (k, v) else p) = Prod.fst := by
      funext p
      by_cases hpk : p.1 = k
      · simp [Function.comp, hpk]
      · simp [Function.comp, hpk]
    rw [hfst]
    exact h
  · rename_i hany
    rw [List.map_append, List.nodup_append]
    refine ⟨h, by simp, ?_⟩
    intro a ha hb
    obtain ⟨p, hp, hpa⟩ := List.mem_map.mp ha
    have hak : a = k := by simpa using hb
    have : m.any (fun p => p.1 = k) = true :=
      List.any_eq_true.mpr ⟨p, hp, by simp [hpa, hak]⟩
    exact hany this

/-- A block commit never duplicates a key. -/
theorem commit_block_keys_nodup {pats : Patterns} {hdr : Option (String × Matcher)}
    {cur : List Regex} (h : (pats.map Prod.fst).Nodup) :
    ((commit_block pats hdr cur).map Prod.fst).Nodup := by
  unfold commit_block
  split
  · exact h
  · split
    · exact h
    · exact dict_insert_keys_nodup h

/-- Looking up an assigned key after in-place replacement yields the new
binding. -/
theorem patterns_get_replace {m : Patterns} {k : String × Matcher}
    {v : List Regex} (h : m.any (fun p => p.1 = k) = true) :
    patterns_get (m.map (fun p => if p.1 = k then (k, v) else p)) k = some v := by
  induction m with
  | nil => simp at h
  | cons p m ih =>
    by_cases hpk : p.1 = k
    · simp [patterns_get, hpk]
    · have h2 : m.any (fun p => p.1 = k) = true := by
        simp only [List.any_cons, Bool.or_eq_true, decide_eq_true_eq] at h
        rcases h with h | h
        · exact absurd h hpk
        · exact h
      simp only [List.map_cons, patterns_get, if_neg hpk]
      exact ih h2

/-- Looking up an appended key yields the appended binding. -/
theorem patterns_get_append {m : Patterns} {k : String × Matcher}
    {v : List Regex} (h : m.any (fun p => p.1 = k) = false) :
    patterns_get (m ++ [(k, v)]) k = some v := by
  induction m with
  | nil => simp [patterns_get]
  | cons p m ih =>
    simp only [List.any_cons, Bool.or_eq_false_iff, decide_eq_false_iff_not] at h
    simp only [List.cons_append, patterns_get, if_neg h.1]
    exact ih (by simpa using h.2)

/-- Dict assignment: the assigned key maps to the assigned list. -/
theorem dict_insert_get (m : Patterns) (k : String × Matcher) (v : List Regex) :
    patterns_get (dict_insert m k v) k = some v := by
  unfold dict_insert
  split
  · rename_i h
    exact patterns_get_replace h
  · rename_i h
    exact patterns_get_append (Bool.eq_false_iff.mpr h)

/-- C10: a compiled table never holds a key twice; dict assignment makes the
later pattern list the one stored for a repeated key; and the two-block rule
file repeating the literal header `A = x` compiles to the single entry
holding only the later block's list. -/
theorem read_patterns_duplicate_header :
    (∀ (lines : List String) (tbl : Patterns),
        read_patterns lines = Except.ok tbl → (tbl.map Prod.fst).Nodup)
    ∧ (∀ (m : Patterns) (k : String × Matcher) (v : List Regex),
        patterns_get (dict_insert m k v) k = some v)
    ∧ read_patterns ["A = x", "p1", "", "A = x", "p2"]
        = Except.ok [(("A", Matcher.lit "x"), [⟨"p2"⟩])] := by
  refine ⟨?_, dict_insert_get, rfl⟩
  intro lines tbl h
  exact read_patterns_table_inv (fun pats => (pats.map Prod.fst).Nodup)
    (fun pats hdr cur hP => commit_block_keys_nodup hP) (by simp) lines tbl h

/-- Witness for C10 at the repeated-header rule file. -/
theorem read_patterns_duplicate_header_witness :
    read_patterns ["A = x", "p1", "", "A = x", "p2"]
        = Except.ok [(("A", Matcher.lit "x"), [⟨"p2"⟩])]
    ∧ (([(("A", Matcher.lit "x"), [Regex.mk "p2"])] : Patterns).map Prod.fst).Nodup :=
  ⟨rfl, read_patterns_duplicate_header.1 ["A = x", "p1", "", "A = x", "p2"] _ rfl⟩

/-- `process_line` on a comment line. -/
theorem process_line_comment {st : RPState} {line : String}
    (h : py_startswith line '#' = true) :
    process_line st line = .ok st := by
  simp [process_line, h]

/-- `process_line` on a blank line. -/
theorem process_line_blank {st : RPState} {line : String}
    (h1 : py_startswith line '#' = false) (h2 : py_strip line = "") :
    process_line st line
      = .ok { patterns := commit_block st.patterns st.header st.cur_patterns,
              is_header := true, cur_patterns := [], header := none } := by
  simp [process_line, h1, h2]

/-- `process_line` on a line in header position. -/
theorem process_line_header {st : RPState} {line : String}
    (h1 : py_startswith line '#' = false) (h2 : ¬py_strip line = "")
    (h3 : st.is_header = true) :
    process_line st line
      = match parse_header line with
        | .ok h => .ok { st with header := some h, is_header := false }
        | .error e => .error e := by
  simp [process_line, h1, h2, h3]

/-- `process_line` on a pattern line inside a block. -/
theorem process_line_body {st : RPState} {line : String}
    (h1 : py_startswith line '#' = false) (h2 : ¬py_strip line = "")
    (h3 : st.is_header = false) :
    process_line st line
      = .ok { st with cur_patterns := st.cur_patterns ++ [⟨rstrip_nl line⟩] } := by
  simp [process_line, h1, h2, h3]

/-- Header positions skip comment lines. -/
theorem header_positions_go_comment {b : Bool} {line : String} {rest : List String}
    (h : py_startswith line '#' = true) :
    header_positions_go b (line :: rest) = header_positions_go b rest := by
  simp [header_positions_go, h]

/-- Header positions after a blank line restart at header mode. -/
theorem header_positions_go_blank {b : Bool} {line : String} {rest : List String}
    (h1 : py_startswith line '#' = false) (h2 : py_strip line = "") :
    header_positions_go b (line :: rest) = header_positions_go true rest := by
  simp [header_positions_go, h1, h2]

/-- A non-comment, non-blank line in header mode is a header position. -/
theorem header_positions_go_header {line : String} {rest : List String}
    (h1 : py_startswith line '#' = false) (h2 : ¬py_strip line = "") :
    header_positions_go true (line :: rest) = line :: header_positions_go false rest := by
  simp [header_positions_go, h1, h2]

/-- A non-comment, non-blank line inside a block is not a header position. -/
theorem header_positions_go_body {line : String} {rest : List String}
    (h1 : py_startswith line '#' = false) (h2 : ¬py_strip line = "") :
    header_positions_go false (line :: rest) = header_positions_go false rest := by
  simp [header_positions_go, h1, h2]

theorem parse_header_error {line e : String} (h : parse_header line = .error e) :
    e = line ∧ (py_split line '=').length ≠ 2 := by
  unfold parse_header at h
  rcases hs : py_split line '=' with _ | ⟨a, _ | ⟨b, _ | ⟨c, l⟩⟩⟩ <;> rw [hs] at h
  · refine ⟨?_, by simp⟩
    injection h with h2
    exact h2.symm
  · refine ⟨?_, by simp⟩
    injection h with h2
    exact h2.symm
  · exfalso
    by_cases hsl : (py_startswith (py_strip b) '/' && py_endswith (py_strip b) '/') = true
    · simp [hsl] at h
    · simp [hsl] at h
  · refine ⟨?_, by simp⟩
    injection h with h2
    exact h2.symm

theorem parse_header_of_bad_length {line : String}
    (h : (py_split line '=').length ≠ 2) : parse_header line = .error line := by
  unfold parse_header
  rcases hs : py_split line '=' with _ | ⟨a, _ | ⟨b, _ | ⟨c, l⟩⟩⟩
  · rfl
  · rfl
  · rw [hs] at h
    simp at h
  · rfl

/-- If the compiler loop raises, the carried line sits in header position and
splits on `=` into a number of parts other than two. -/
theorem run_lines_error_sound :
    ∀ (lines : List String) (st : RPState) (e : String),
      run_lines st lines = .error e →
      e ∈ header_positions_go st.is_header lines ∧ (py_split e '=').length ≠ 2 := by
  intro lines
  induction lines with
  | nil =>
    intro st e h
    unfold run_lines at h
    cases h
  | cons line rest ih =>
    intro st e h
    unfold run_lines at h
    by_cases h1 : py_startswith line '#' = true
    · rw [process_line_comment h1] at h
      rw [header_positions_go_comment h1]
      exact ih st e h
    · have h1f : py_startswith line '#' = false := Bool.eq_false_iff.mpr h1
      by_cases h2 : py_strip line = ""
      · rw [process_line_blank h1f h2] at h
        rw [header_positions_go_blank h1f h2]
        exact ih _ e h
      · cases h3 : st.is_header with
        | true =>
          rw [process_line_header h1f h2 h3] at h
          rw [header_positions_go_header h1f h2]
          cases hph : parse_header line with
          | ok hdr =>
            rw [hph] at h
            have := ih _ e h
            exact ⟨List.mem_cons_of_mem line this.1, this.2⟩
          | error e₂ =>
            rw [hph] at h
            have he : e₂ = e := by injection h
            obtain ⟨hel, hlen⟩ := parse_header_error hph
            rw [← he, hel]
            exact ⟨List.mem_cons_self _ _, hlen⟩
        | false =>
          rw [process_line_body h1f h2 h3] at h
          rw [header_positions_go_body h1f h2]
          have h5 := ih _ e h
          rw [show ({ st with cur_patterns := st.cur_patterns ++ [⟨rstrip_nl line⟩] } :
                RPState).is_header = st.is_header from rfl, h3] at h5
          exact h5

/-- If some header-position line splits on `=` into a number of parts other
than two, the compiler loop raises. -/
theorem run_lines_error_complete :
    ∀ (lines : List String) (st : RPState) (l : String),
      l ∈ header_positions_go st.is_header lines →
      (py_split l '=').length ≠ 2 →
      ∃ e, run_lines st lines = .error e := by
  intro lines
  induction lines with
  | nil =>
    intro st l hl hlen
    cases hl
  | cons line rest ih =>
    intro st l hl hlen
    unfold run_lines
    by_cases h1 : py_startswith line '#' = true
    · rw [process_line_comment h1]
      rw [header_positions_go_comment h1] at hl
      exact ih st l hl hlen
    · have h1f : py_startswith line '#' = false := Bool.eq_false_iff.mpr h1
      by_cases h2 : py_strip line = ""
      · rw [process_line_blank h1f h2]
        rw [header_positions_go_blank h1f h2] at hl
        exact ih _ l hl hlen
      · cases h3 : st.is_header with
        | true =>
          rw [process_line_header h1f h2 h3]
          rw [h3, header_positions_go_header h1f h2] at hl
          rcases List.mem_cons.mp hl with hll | hlt
          · rw [hll] at hlen
            rw [parse_header_of_bad_length hlen]
            exact ⟨line, rfl⟩
          · cases hph : parse_header line with
            | ok hdr => exact ih _ l hlt hlen
            | error e₂ => exact ⟨e₂, rfl⟩
        | false =>
          rw [process_line_body h1f h2 h3]
          rw [h3, header_positions_go_body h1f h2] at hl
          have hl2 : l ∈ header_positions_go
              ({ st with cur_patterns := st.cur_patterns ++ [⟨rstrip_nl line⟩] } :
                RPState).is_header rest := by
            rw [show ({ st with cur_patterns := st.cur_patterns ++ [⟨rstrip_nl line⟩] } :
                  RPState).is_header = st.is_header from rfl, h3]
            exact hl
          exact ih _ l hl2 hlen

/-- C1 (amended): `read_patterns` fails — with the error carrying the
offending line and no table returned — exactly when some non-blank,
non-comment line in header position does not split on `=` into exactly two
parts (i.e. does not contain exactly one `=`). -/
theorem read_patterns_error_iff (lines : List String) :
    ((∃ e, read_patterns lines = Except.error e) ↔
      ∃ l ∈ header_positions lines, (py_split l '=').length ≠ 2)
    ∧ (∀ e, read_patterns lines = Except.error e →
        e ∈ header_positions lines ∧ (py_split e '=').length ≠ 2) := by
  have hrw : ∀ e, read_patterns lines = .error e ↔ run_lines init_state lines = .error e := by
    intro e
    unfold read_patterns
    cases hr : run_lines init_state lines <;> simp
  refine ⟨⟨?_, ?_⟩, ?_⟩
  · rintro ⟨e, he⟩
    have h2 := run_lines_error_sound lines init_state e ((hrw e).mp he)
    exact ⟨e, h2.1, h2.2⟩
  · rintro ⟨l, hl, hlen⟩
    obtain ⟨e, he⟩ := run_lines_error_complete lines init_state l hl hlen
    exact ⟨e, (hrw e).mpr he⟩
  · intro e he
    exact run_lines_error_sound lines init_state e ((hrw e).mp he)

/-- Witness for C1 at a separator-free header line. -/
theorem read_patterns_error_iff_witness :
    read_patterns ["nosep"] = Except.error "nosep"
    ∧ "nosep" ∈ header_positions ["nosep"]
    ∧ (py_split "nosep" '=').length ≠ 2 :=
  ⟨rfl, ((read_patterns_error_iff ["nosep"]).2 "nosep" rfl).1,
   ((read_patterns_error_iff ["nosep"]).2 "nosep" rfl).2⟩

/-- Counterexample to C1 as stated: the rule file `["A=b=c"]` has its only
header-position line containing an `=` separator, yet compilation fails
(the code splits on every `=`, not on the first one). -/
theorem read_patterns_error_despite_separator :
    read_patterns ["A=b=c"] = Except.error "A=b=c"
    ∧ header_positions ["A=b=c"] = ["A=b=c"]
    ∧ "A=b=c".data.contains '=' = true := by
  refine ⟨rfl, rfl, by decide⟩
